import Mathlib

/-!
Verification of the YTD (year-to-date) return analysis core of the
stock-performance-analyzer repository.

The embedding translates the Python source files
`src/utils/ytd_analysis.py`, `src/utils/multi_ticker_analysis.py` and the
relevant caller logic of `src/pages/1_Ticker_Comparison.py` into Lean.
Conventions of the embedding:

* A price bar is `{date, close}` where the source only ever uses the
  calendar year and month of the date (`df["Date"].dt.year` / `.dt.month`),
  so a bar is modelled as `(year, month, close)`.
* Prices and returns are modelled over `ℚ` (the source uses IEEE doubles;
  no rounding happens before display, and the claims under study are about
  which rows are emitted and exact arithmetic shape, not about rounding).
* The source reads `datetime.now()` inside `calculate_ytd_returns` and
  `determine_comparison_years`; the current (year, month) is passed
  explicitly as `todayY`/`todayM` so that behaviour is a function of it.
* Pandas DataFrames of YTD rows are modelled as `List YTDObs` in date
  order; a pandas `Series` indexed by month is a `List (ℕ × ℚ)` in row
  order; dict-of-series is an association list in insertion order
  (Python dicts preserve insertion order).
* `dropna` after the baseline `map` is modelled by `List.filterMap`: a row
  is emitted exactly when the prior-December baseline exists, and emitted
  rows always carry a value (never a null).
-/

/-- A monthly price bar: the source only uses the bar's calendar year,
month and (adjusted) close. -/
structure PriceBar where
  year : Int
  month : Nat
  close : ℚ
deriving Repr, DecidableEq

/-- One row of the output of `calculate_ytd_returns`: Year, Month, Close
and the computed YTD column. -/
structure YTDObs where
  year : Int
  month : Nat
  close : ℚ
  ytd : ℚ
deriving Repr, DecidableEq

/-- Lines 39-46 of `ytd_analysis.py`: restrict bars to
`Year.between(start_year, end_year)` and, when `end_year` equals the real
current year, drop bars of the current year whose month has not completed
(`Month >= today.month`). -/
def processed_bars (bars : List PriceBar) (startYear endYear todayY : Int)
    (todayM : Nat) : List PriceBar :=
  let ranged := bars.filter (fun b => startYear ≤ b.year && b.year ≤ endYear)
  if endYear = todayY then
    ranged.filter (fun b => !(b.year == endYear && todayM ≤ b.month))
  else
    ranged

/-- Lines 48-51 of `ytd_analysis.py`: the prior-December baseline.
`dec_baseline` is the December bars of the (already filtered) frame,
re-indexed by `Year + 1`; looking it up at year `y` yields the close of the
December bar of year `y - 1`, if any.  (The repository invariant is at
most one bar per (year, month), so `find?` is the pandas index lookup.) -/
def dec_close (bars : List PriceBar) (y : Int) : Option ℚ :=
  (bars.find? (fun b => b.month == 12 && b.year == y - 1)).map (·.close)

/-- Function `calculate_ytd_returns` (`ytd_analysis.py`, lines 10-59):
filter the bars, compute `YTD = Close / dec_baseline[Year] - 1`, and drop
the rows whose baseline is missing (`dropna(subset=["YTD"])`). -/
def calculate_ytd_returns (bars : List PriceBar) (startYear endYear todayY : Int)
    (todayM : Nat) : List YTDObs :=
  let kept := processed_bars bars startYear endYear todayY todayM
  kept.filterMap (fun b =>
    (dec_close kept b.year).map (fun d =>
      { year := b.year, month := b.month, close := b.close
        ytd := b.close / d - 1 }))

/-- The caller's no-data test (`1_Ticker_Comparison.py`, line 201:
`if len(ytd_data) == 0: failed_tickers.append(ticker)`): a result is kept
for analysis exactly when it has at least one row. -/
def analyze_keeps (ytd : List YTDObs) : Bool :=
  ytd.length != 0

/-- The repository invariant on bar sequences: at most one bar per
(year, month). -/
def uniqueYM (bars : List PriceBar) : Prop :=
  bars.Pairwise (fun a b => a.year ≠ b.year ∨ a.month ≠ b.month)

instance : DecidablePred uniqueYM := fun bars =>
  inferInstanceAs (Decidable (bars.Pairwise _))

/-- Lines 81-85 of `ytd_analysis.py`: the per-year Series `Month → YTD`,
kept in row (i.e. date) order. -/
def seriesFor (obs : List YTDObs) (y : Int) : List (Nat × ℚ) :=
  (obs.filter (fun o => o.year == y)).map (fun o => (o.month, o.ytd))

/-- The expression `sorted(df["Year"].unique())` (line 78 of `ytd_analysis.py`). -/
def sortedYears (obs : List YTDObs) : List Int :=
  List.insertionSort (fun a b : Int => a ≤ b) ((obs.map (·.year)).dedup)

/-- The tuple returned by `prepare_ytd_series`. -/
structure SeriesInfo where
  ytd_by_year : List (Int × List (Nat × ℚ))
  highlight_year : Int
  last_month_highlight : Nat
deriving Repr, DecidableEq

/-- Function `prepare_ytd_series` (`ytd_analysis.py`, lines 62-97).  The dict of
series is an association list in ascending year order (Python dict
insertion order, inserted over `sorted(years)`).  `max()` of an empty
Python sequence raises; that case (empty `obs`) is given the junk value 0
and is never relied on by any theorem. -/
def prepare_ytd_series (obs : List YTDObs) (currentYear : Int) : SeriesInfo :=
  let years := sortedYears obs
  let ytdByYear := years.map (fun y => (y, seriesFor obs y))
  let cur := obs.filter (fun o => o.year == currentYear)
  if cur.length > 0 then
    { ytd_by_year := ytdByYear, highlight_year := currentYear
      last_month_highlight := ((cur.map (·.month)).max?).getD 0 }
  else
    let hy := (years.max?).getD 0
    { ytd_by_year := ytdByYear, highlight_year := hy
      last_month_highlight :=
        (((obs.filter (fun o => o.year == hy)).map (·.month)).max?).getD 0 }

/-- pandas `series.get(m, np.nan)` on a month-indexed Series: the value at
index `m`, or missing.  (Months are unique per year by the repository
invariant, so the first match is the index lookup.) -/
def series_get (s : List (Nat × ℚ)) (m : Nat) : Option ℚ :=
  (s.find? (fun p => p.1 == m)).map (·.2)

/-- The mean `np.mean` over ℚ. -/
def mean_q (l : List ℚ) : ℚ := l.sum / (l.length : ℚ)

/-- The square of `np.std(l, ddof=1)`: the ddof=1 sample variance
`Σ (x - mean)² / (n - 1)`.  The source's standard deviation is the IEEE
square root of this quantity; staying with the variance keeps the
embedding inside ℚ while preserving the ddof=1 semantics and exactly when
the statistic is defined. -/
def np_var_ddof1 (l : List ℚ) : ℚ :=
  (l.map (fun x => (x - mean_q l) ^ 2)).sum / ((l.length : ℚ) - 1)

/-- The tuple returned by `calculate_historical_average`; `std_sq` holds
the square of the source's `std` (see `np_var_ddof1`). -/
structure HistAvg where
  avg : Option ℚ
  std_sq : Option ℚ
  n_years : Nat
deriving Repr, DecidableEq

/-- Function `calculate_historical_average` (`ytd_analysis.py`, lines 100-127):
drop the excluded year (`y != exclude_year`; `exclude_year=None` excludes
nothing), take each remaining year's December value if present
(`.get(12, np.nan)`), drop the missing ones, then mean / sample std /
count.  `np.nan` results are modelled by `none`. -/
def calculate_historical_average (ytdByYear : List (Int × List (Nat × ℚ)))
    (excludeYear : Option Int) : HistAvg :=
  let completed := ytdByYear.filter (fun p => some p.1 ≠ excludeYear)
  let decReturns := completed.map (fun p => series_get p.2 12)
  let clean := decReturns.filterMap id
  { avg := if clean.length > 0 then some (mean_q clean) else none
    std_sq := if clean.length > 1 then some (np_var_ddof1 clean) else none
    n_years := clean.length }

/-- Python's builtin `max(items, key=f)` scan: the running best is
replaced only when the next item's key is strictly greater, so the first
of several maximal items wins. -/
def pick_max (best : Int × ℚ) : List (Int × ℚ) → Int × ℚ
  | [] => best
  | p :: rest => pick_max (if best.2 < p.2 then p else best) rest

/-- Python `max(l, key=...)` over (year, value) pairs keyed by the value;
`none` on the empty list (Python raises there, but the source guards with
`len(year_end_returns) >= 1`). -/
def argmax_first : List (Int × ℚ) → Option (Int × ℚ)
  | [] => none
  | p :: rest => some (pick_max p rest)

/-- Python's builtin `min(items, key=f)` scan: replaced only on strictly
smaller, so the first minimal item wins. -/
def pick_min (best : Int × ℚ) : List (Int × ℚ) → Int × ℚ
  | [] => best
  | p :: rest => pick_min (if p.2 < best.2 then p else best) rest

/-- Python `min(l, key=...)` over (year, value) pairs keyed by the value. -/
def argmin_first : List (Int × ℚ) → Option (Int × ℚ)
  | [] => none
  | p :: rest => some (pick_min p rest)

/-- Lines 160-164 of `ytd_analysis.py`: the `year_end_returns` dict —
for each year (in dict order), its December value when present. -/
def year_end_returns (ytdByYear : List (Int × List (Nat × ℚ))) :
    List (Int × ℚ) :=
  ytdByYear.filterMap (fun p => (series_get p.2 12).map (fun v => (p.1, v)))

/-- The dict returned by `get_summary_statistics`; `std_sq_full_year_ytd`
holds the square of the source's `std_full_year_ytd` (see
`np_var_ddof1`). -/
structure SummaryStats where
  actual_start_year : Int
  highlight_year : Int
  last_month_highlight : Nat
  avg_full_year_ytd : Option ℚ
  std_sq_full_year_ytd : Option ℚ
  n_years : Nat
  best_year : Option Int
  best_return : Option ℚ
  worst_year : Option Int
  worst_return : Option ℚ
  current_ytd : Option ℚ
deriving Repr, DecidableEq

/-- Function `get_summary_statistics` (`ytd_analysis.py`, lines 130-194).
`best_return = year_end_returns[best_year]` is the dict lookup, modelled
by `find?` (dict keys are unique). -/
def get_summary_statistics (ytdByYear : List (Int × List (Nat × ℚ)))
    (highlightYear : Int) (lastMonthHighlight : Nat) : SummaryStats :=
  let excludeYear := if lastMonthHighlight < 12 then some highlightYear else none
  let hist := calculate_historical_average ytdByYear excludeYear
  let yer := year_end_returns ytdByYear
  let best := argmax_first yer
  let worst := argmin_first yer
  let dictGet := fun (y : Option Int) =>
    y.bind (fun y0 => (yer.find? (fun p => p.1 == y0)).map (·.2))
  { actual_start_year := ((ytdByYear.map (·.1)).min?).getD 0
    highlight_year := highlightYear
    last_month_highlight := lastMonthHighlight
    avg_full_year_ytd := hist.avg
    std_sq_full_year_ytd := hist.std_sq
    n_years := hist.n_years
    best_year := best.map (·.1)
    best_return := dictGet (best.map (·.1))
    worst_year := worst.map (·.1)
    worst_return := dictGet (worst.map (·.1))
    current_ytd :=
      ((ytdByYear.find? (fun p => p.1 == highlightYear)).bind
        (fun p => p.2.getLast?)).map (·.2) }

/-- The tuple returned by `determine_comparison_years`
(`multi_ticker_analysis.py`, lines 10-29). -/
structure WindowInfo where
  current_year : Int
  prior_year : Int
  last_completed_month : Nat
  is_january : Bool
deriving Repr, DecidableEq

/-- Function `determine_comparison_years`, with the source's `datetime.now()` made
an explicit (year, month) argument (the function is otherwise a pure
function of the current date). -/
def determine_comparison_years (todayY : Int) (todayM : Nat) : WindowInfo :=
  if todayM = 1 then
    { current_year := todayY, prior_year := todayY - 1
      last_completed_month := 12, is_january := true }
  else
    { current_year := todayY, prior_year := todayY - 1
      last_completed_month := todayM - 1, is_january := false }

/-- Lines 54-60 of `1_Ticker_Comparison.py`: the caller's selection of
`(compare_year, baseline_year)` from the resolver's result. -/
def select_compare_baseline (w : WindowInfo) : Int × Int :=
  if w.is_january then (w.prior_year, w.prior_year - 1)
  else (w.current_year, w.prior_year)

/-- Function `get_ytd_for_comparison` (`multi_ticker_analysis.py`, lines 32-65):
the year's month-indexed YTD Series truncated to `index <= last_month`;
`None` when the year has no rows or truncation leaves none. -/
def get_ytd_for_comparison (obs : List YTDObs) (year : Int) (lastMonth : Nat) :
    Option (List (Nat × ℚ)) :=
  let yearData := obs.filter (fun o => o.year == year)
  if yearData.length = 0 then none
  else
    let series := (yearData.map (fun o => (o.month, o.ytd))).filter
      (fun p => p.1 ≤ lastMonth)
    if series.length > 0 then some series else none

/-- One entry of the dict built by `prepare_comparison_data`. -/
structure TickerSeries where
  ticker : String
  current : Option (List (Nat × ℚ))
  prior : Option (List (Nat × ℚ))
deriving Repr, DecidableEq

/-- Function `prepare_comparison_data` (`multi_ticker_analysis.py`, lines 68-106):
one entry per ticker that has data for at least one of the two periods,
in input (dict insertion) order. -/
def prepare_comparison_data (allYtd : List (String × List YTDObs))
    (currentYear priorYear : Int) (lastMonth : Nat) : List TickerSeries :=
  allYtd.filterMap (fun td =>
    let c := get_ytd_for_comparison td.2 currentYear lastMonth
    let p := get_ytd_for_comparison td.2 priorYear lastMonth
    if c.isSome || p.isSome then
      some { ticker := td.1, current := c, prior := p }
    else none)

/-- One row of the statistics table of `calculate_comparison_statistics`;
`np.nan` entries are modelled by `none`. -/
structure CompRow where
  ticker : String
  current_return : Option ℚ
  prior_return : Option ℚ
  difference : Option ℚ
deriving Repr, DecidableEq

/-- Lines 139-158 of `multi_ticker_analysis.py`: one row per ticker —
last value of each period's series (nan when the series is missing or
empty) and their difference (nan when either operand is nan). -/
def mk_row (t : TickerSeries) : CompRow :=
  let cur := t.current.bind (fun s => (s.getLast?).map (·.2))
  let pri := t.prior.bind (fun s => (s.getLast?).map (·.2))
  { ticker := t.ticker
    current_return := cur
    prior_return := pri
    difference :=
      match cur, pri with
      | some a, some b => some (a - b)
      | _, _ => none }

/-- Row comparison used by the sort: descending on `Current Return`
(defined on the non-null rows, where `getD` is the stored value). -/
def row_ge (a b : CompRow) : Prop :=
  b.current_return.getD 0 ≤ a.current_return.getD 0

instance : DecidableRel row_ge := fun a b =>
  inferInstanceAs (Decidable (b.current_return.getD 0 ≤ a.current_return.getD 0))

/-- pandas `sort_values('Current Return', ascending=False,
na_position='last')` via its `nargsort` kernel: the NaN rows are masked
out and appended at the end in original order; the non-NaN rows are
reversed, stably argsorted ascending, and the indexer reversed again —
which is exactly the stable descending sort of the non-NaN rows (ties
keep original order).  The stable sort is realized by `insertionSort`,
numpy's small-array sorting kernel. -/
def sort_rows (rows : List CompRow) : List CompRow :=
  (rows.filter (fun r => r.current_return.isSome)).insertionSort row_ge
    ++ rows.filter (fun r => r.current_return.isNone)

/-- Function `calculate_comparison_statistics` (`multi_ticker_analysis.py`, lines
109-165): build one row per ticker in dict order, then sort by current
return descending with nulls last. -/
def calculate_comparison_statistics (data : List TickerSeries) : List CompRow :=
  sort_rows (data.map mk_row)

/-! ### Helper lemmas about the YTD calculator -/

theorem mem_processed_bars {bars : List PriceBar} {sy ey ty : Int} {tm : Nat}
    {b : PriceBar} (h : b ∈ processed_bars bars sy ey ty tm) :
    b ∈ bars ∧ sy ≤ b.year ∧ b.year ≤ ey := by
  unfold processed_bars at h
  split at h
  · simp only [List.mem_filter, Bool.and_eq_true, Bool.not_eq_true',
      decide_eq_true_eq] at h
    exact ⟨h.1.1, h.1.2⟩
  · simp only [List.mem_filter, Bool.and_eq_true, decide_eq_true_eq] at h
    exact ⟨h.1, h.2⟩

theorem dec_close_some {bars : List PriceBar} {y : Int} {d : ℚ}
    (h : dec_close bars y = some d) :
    ∃ b ∈ bars, b.month = 12 ∧ b.year = y - 1 ∧ b.close = d := by
  unfold dec_close at h
  cases hf : bars.find? (fun b => b.month == 12 && b.year == y - 1) with
  | none => rw [hf] at h; simp at h
  | some b =>
    rw [hf] at h
    simp only [Option.map_some'] at h
    have hm := List.mem_of_find?_eq_some hf
    have hp := List.find?_some hf
    simp only [Bool.and_eq_true, beq_iff_eq] at hp
    exact ⟨b, hm, hp.1, hp.2, Option.some.injEq _ _ ▸ h⟩

theorem mem_calculate_ytd_returns {bars : List PriceBar} {sy ey ty : Int}
    {tm : Nat} {o : YTDObs}
    (h : o ∈ calculate_ytd_returns bars sy ey ty tm) :
    ∃ b ∈ processed_bars bars sy ey ty tm, ∃ d,
      dec_close (processed_bars bars sy ey ty tm) b.year = some d ∧
      o = { year := b.year, month := b.month, close := b.close
            ytd := b.close / d - 1 } := by
  unfold calculate_ytd_returns at h
  simp only [List.mem_filterMap] at h
  obtain ⟨b, hb, hfb⟩ := h
  cases hd : dec_close (processed_bars bars sy ey ty tm) b.year with
  | none => rw [hd] at hfb; simp at hfb
  | some d =>
    rw [hd] at hfb
    simp only [Option.map_some', Option.some.injEq] at hfb
    exact ⟨b, hb, d, hd, hfb.symm⟩

/-! ### C3: Calendar Window Resolver -/

/-- C3: as a function of the current (year, month), the Calendar Window
Resolver returns, for January, last_completed_month = 12, comparison_year
= current_year - 1, is_january = true, baseline_year = comparison_year -
1; for every other month, last_completed_month = current_month - 1,
comparison_year = current_year, is_january = false, baseline_year =
current_year - 1.  (comparison_year/baseline_year are the caller's
`compare_year`/`baseline_year` selection.)  In particular (2026, 1) gives
(2026, 2025, 12, true) with baseline 2024 and (2026, 3) gives
comparison_year 2026, last month 2, non-January, baseline 2025. -/
theorem C3_calendar_window_resolver :
    (∀ (y : Int) (m : Nat),
      (determine_comparison_years y m).current_year = y ∧
      (m = 1 →
        determine_comparison_years y m =
          { current_year := y, prior_year := y - 1
            last_completed_month := 12, is_january := true } ∧
        select_compare_baseline (determine_comparison_years y m) =
          (y - 1, y - 1 - 1)) ∧
      (m ≠ 1 →
        determine_comparison_years y m =
          { current_year := y, prior_year := y - 1
            last_completed_month := m - 1, is_january := false } ∧
        select_compare_baseline (determine_comparison_years y m) =
          (y, y - 1))) ∧
    determine_comparison_years 2026 1 =
      { current_year := 2026, prior_year := 2025
        last_completed_month := 12, is_january := true } ∧
    select_compare_baseline (determine_comparison_years 2026 1) =
      (2025, 2024) ∧
    (determine_comparison_years 2026 3).current_year = 2026 ∧
    select_compare_baseline (determine_comparison_years 2026 3) =
      (2026, 2025) ∧
    (determine_comparison_years 2026 3).last_completed_month = 2 ∧
    (determine_comparison_years 2026 3).is_january = false := by
  refine ⟨fun y m => ⟨?_, ?_, ?_⟩, by decide, by decide, by decide,
    by decide, by decide, by decide⟩
  · unfold determine_comparison_years
    split <;> rfl
  · intro hm
    subst hm
    exact ⟨rfl, rfl⟩
  · intro hm
    unfold determine_comparison_years
    rw [if_neg hm]
    exact ⟨rfl, rfl⟩

/-- Witness for C3 at the concrete date (2030, 1). -/
theorem C3_calendar_window_resolver_witness :
    determine_comparison_years 2030 1 =
      { current_year := 2030, prior_year := 2029
        last_completed_month := 12, is_january := true } ∧
    select_compare_baseline (determine_comparison_years 2030 1) =
      (2029, 2028) := by
  have h := (C3_calendar_window_resolver.1 2030 1).2.1 rfl
  refine ⟨h.1, ?_⟩
  rw [h.2]
  norm_num

/-! ### C10: the first year of the range never yields observations -/

/-- C10: for every input bar sequence, range and current date, the YTD
Return Calculator emits no observation whose year equals start_year: the
prior-December lookup is built only from bars inside the range, so
December of start_year - 1 is never available. -/
theorem C10_no_start_year_obs (bars : List PriceBar) (sy ey ty : Int)
    (tm : Nat) :
    (calculate_ytd_returns bars sy ey ty tm).filter
      (fun o => o.year == sy) = [] := by
  rw [List.filter_eq_nil_iff]
  intro o ho hsy
  obtain ⟨b, hb, d, hd, rfl⟩ := mem_calculate_ytd_returns ho
  obtain ⟨bb, hbb, hm, hy, hc⟩ := dec_close_some hd
  have h2 := mem_processed_bars hbb
  have hsy' : b.year = sy := by simpa using hsy
  omega

/-! ### C4: empty input yields the caller-distinguishable no-data value -/

/-- C4: on an empty bar sequence the YTD Return Calculator produces the
empty row set — the "no data" value, which the caller's
`len(ytd_data) == 0` test classifies as a failed ticker, and which can
never be mistaken for a result carrying observations. -/
theorem C4_empty_input_no_data (sy ey ty : Int) (tm : Nat) :
    calculate_ytd_returns [] sy ey ty tm = [] ∧
    analyze_keeps (calculate_ytd_returns [] sy ey ty tm) = false := by
  have h : calculate_ytd_returns [] sy ey ty tm = [] := by
    unfold calculate_ytd_returns processed_bars
    split <;> rfl
  exact ⟨h, by rw [h]; rfl⟩

theorem processed_bars_sublist (bars : List PriceBar) (sy ey ty : Int)
    (tm : Nat) : List.Sublist (processed_bars bars sy ey ty tm) bars := by
  unfold processed_bars
  split
  · exact (List.filter_sublist _).trans (List.filter_sublist _)
  · exact List.filter_sublist _

theorem uniqueYM_processed {bars : List PriceBar} {sy ey ty : Int} {tm : Nat}
    (hu : uniqueYM bars) : uniqueYM (processed_bars bars sy ey ty tm) :=
  hu.sublist (processed_bars_sublist bars sy ey ty tm)

theorem uniqueYM_symm :
    Symmetric (fun a b : PriceBar => a.year ≠ b.year ∨ a.month ≠ b.month) := by
  intro a b h
  rcases h with h | h
  · exact Or.inl (Ne.symm h)
  · exact Or.inr (Ne.symm h)

/-- With the at-most-one-bar-per-(year, month) invariant, two bars of the
same (year, month) in the list are the same bar. -/
theorem uniqueYM_eq {l : List PriceBar} (hu : uniqueYM l) {a b : PriceBar}
    (ha : a ∈ l) (hb : b ∈ l) (hy : a.year = b.year) (hm : a.month = b.month) :
    a = b := by
  by_contra hne
  rcases hu.forall uniqueYM_symm ha hb hne with h | h
  · exact h hy
  · exact h hm

/-! ### C1: the YTD formula -/

/-- C1: every emitted observation's ytd_return equals
close(year, month) / close(year - 1, 12) - 1: the observation's close is
the close of the bar at its (year, month), a December bar of year - 1
exists among the processed bars, and the ytd value is the observation's
close divided by that December close, minus 1. -/
theorem C1_ytd_formula (bars : List PriceBar) (sy ey ty : Int) (tm : Nat)
    (hu : uniqueYM bars) :
    ∀ o ∈ calculate_ytd_returns bars sy ey ty tm,
      (∃ b ∈ processed_bars bars sy ey ty tm,
        b.year = o.year - 1 ∧ b.month = 12) ∧
      (∀ b ∈ processed_bars bars sy ey ty tm,
        b.year = o.year - 1 → b.month = 12 → o.ytd = o.close / b.close - 1) ∧
      (∀ b ∈ processed_bars bars sy ey ty tm,
        b.year = o.year → b.month = o.month → o.close = b.close) := by
  intro o ho
  obtain ⟨b, hb, d, hd, rfl⟩ := mem_calculate_ytd_returns ho
  obtain ⟨bb, hbb, hbm, hby, hbc⟩ := dec_close_some hd
  have hup : uniqueYM (processed_bars bars sy ey ty tm) := uniqueYM_processed hu
  refine ⟨⟨bb, hbb, by simpa using hby, hbm⟩, ?_, ?_⟩
  · intro b' hb' hy' hm'
    have : bb = b' := by
      apply uniqueYM_eq hup hbb hb'
      · simp only [hby]
        simpa using hy'.symm
      · rw [hbm, hm']
    show b.close / d - 1 = b.close / b'.close - 1
    rw [← this, hbc]
  · intro b' hb' hy' hm'
    have : b = b' := by
      apply uniqueYM_eq hup hb hb'
      · exact hy'.symm
      · exact hm'.symm
    rw [this]

/-- Witness for C1: applied to the concrete bar list Dec-2023 at close
100, Jan-2024 at close 110 (invariant discharged by `decide`), the
emitted January-2024 observation's return is 110/100 - 1. -/
theorem C1_ytd_formula_witness :
    ({ year := 2024, month := 1, close := 110, ytd := 1/10 } : YTDObs).ytd
      = (110 : ℚ) / 100 - 1 := by
  have ho : ({ year := 2024, month := 1, close := 110, ytd := 1/10 } : YTDObs)
      ∈ calculate_ytd_returns
        [{ year := 2023, month := 12, close := 100 },
         { year := 2024, month := 1, close := 110 }] 2023 2024 2100 1 := by
    norm_num [calculate_ytd_returns, processed_bars, dec_close, List.find?,
      List.filter]
  have h := C1_ytd_formula
    [{ year := 2023, month := 12, close := 100 },
     { year := 2024, month := 1, close := 110 }]
    2023 2024 2100 1 (by decide)
    { year := 2024, month := 1, close := 110, ytd := 1/10 } ho
  exact h.2.1 { year := 2023, month := 12, close := 100 }
    (by decide) (by decide) (by decide)

/-! ### C2: missing baseline drops, present baseline emits exactly once -/

theorem ytd_filter_length_eq_countP (L : List PriceBar) (y : Int) (m : Nat)
    (d : ℚ) (hd : dec_close L y = some d) :
    ∀ l : List PriceBar,
      ((l.filterMap (fun b => (dec_close L b.year).map (fun dd =>
          ({ year := b.year, month := b.month, close := b.close
             ytd := b.close / dd - 1 } : YTDObs)))).filter
        (fun o => o.year == y && o.month == m)).length
      = l.countP (fun b => b.year == y && b.month == m)
  | [] => rfl
  | b :: l => by
    have ih := ytd_filter_length_eq_countP L y m d hd l
    rw [List.filterMap_cons, List.countP_cons]
    by_cases hq : b.year = y ∧ b.month = m
    · obtain ⟨h1, h2⟩ := hq
      rw [show dec_close L b.year = some d by rw [h1]; exact hd]
      simp only [Option.map_some']
      rw [List.filter_cons]
      simp only [h1, h2]
      simp [ih]
    · cases hdc : dec_close L b.year with
      | none =>
        simp only [Option.map_none']
        rw [ih]
        have : ¬(b.year == y && b.month == m) = true := by
          simp only [Bool.and_eq_true, beq_iff_eq]
          exact hq
        simp [this]
      | some dd =>
        simp only [Option.map_some']
        rw [List.filter_cons]
        have hfalse : ¬(b.year == y && b.month == m) = true := by
          simp only [Bool.and_eq_true, beq_iff_eq]
          exact hq
        simp [ih, hfalse]

theorem countP_eq_one_of_uniqueYM {l : List PriceBar} (hu : uniqueYM l)
    {b : PriceBar} (hb : b ∈ l) {y : Int} {m : Nat}
    (hby : b.year = y) (hbm : b.month = m) :
    l.countP (fun c => c.year == y && c.month == m) = 1 := by
  induction l with
  | nil => cases hb
  | cons a l ih =>
    rw [List.countP_cons]
    rcases List.mem_cons.mp hb with rfl | hbl
    · have h0 : l.countP (fun c => c.year == y && c.month == m) = 0 := by
        rw [List.countP_eq_zero]
        intro c hc hcp
        simp only [Bool.and_eq_true, beq_iff_eq] at hcp
        rcases (List.pairwise_cons.mp hu).1 c hc with h | h
        · exact h (by rw [hby, hcp.1])
        · exact h (by rw [hbm, hcp.2])
      rw [h0]
      simp [hby, hbm]
    · have hrec := ih (List.pairwise_cons.mp hu).2 hbl
      rw [hrec]
      have hnot : ¬(a.year == y && a.month == m) = true := by
        simp only [Bool.and_eq_true, beq_iff_eq]
        rintro ⟨h1, h2⟩
        rcases (List.pairwise_cons.mp hu).1 b hbl with h | h
        · exact h (by rw [h1, hby])
        · exact h (by rw [h2, hbm])
      simp [hnot]

/-- C2: for a year with no December bar of year - 1 among the processed
bars, no observation of that year is emitted at all (the rows are
dropped, and every emitted row carries a computed value by construction);
for a year with such a December bar, every processed bar of that year
yields exactly one observation at its month. -/
theorem C2_baseline_presence (bars : List PriceBar) (sy ey ty : Int)
    (tm : Nat) (hu : uniqueYM bars) (y : Int) :
    ((¬ ∃ bd ∈ processed_bars bars sy ey ty tm,
        bd.year = y - 1 ∧ bd.month = 12) →
      ∀ o ∈ calculate_ytd_returns bars sy ey ty tm, o.year ≠ y) ∧
    (∀ b ∈ processed_bars bars sy ey ty tm,
      (∃ bd ∈ processed_bars bars sy ey ty tm,
        bd.year = y - 1 ∧ bd.month = 12) →
      b.year = y →
      ((calculate_ytd_returns bars sy ey ty tm).filter
        (fun o => o.year == y && o.month == b.month)).length = 1) := by
  constructor
  · intro hno o ho hoy
    obtain ⟨b, hb, d, hd, rfl⟩ := mem_calculate_ytd_returns ho
    obtain ⟨bd, hbd, hbm, hby, _⟩ := dec_close_some hd
    refine hno ⟨bd, hbd, ?_, hbm⟩
    have hby' : b.year = y := hoy
    rw [hby, hby']
  · intro b hb hex hby
    have hsome : (((processed_bars bars sy ey ty tm)).find?
        (fun c => c.month == 12 && c.year == y - 1)).isSome := by
      rw [List.find?_isSome]
      obtain ⟨bd, hbd, hy1, hm1⟩ := hex
      exact ⟨bd, hbd, by simp [hy1, hm1]⟩
    obtain ⟨bd0, hf⟩ := Option.isSome_iff_exists.mp hsome
    have hd : dec_close (processed_bars bars sy ey ty tm) y = some bd0.close := by
      unfold dec_close
      rw [hf]
      rfl
    have hA := ytd_filter_length_eq_countP (processed_bars bars sy ey ty tm)
      y b.month bd0.close hd (processed_bars bars sy ey ty tm)
    have hB := countP_eq_one_of_uniqueYM (uniqueYM_processed hu) hb hby rfl
    calc ((calculate_ytd_returns bars sy ey ty tm).filter
        (fun o => o.year == y && o.month == b.month)).length
        = ((processed_bars bars sy ey ty tm).filterMap
            (fun c => (dec_close (processed_bars bars sy ey ty tm) c.year).map
              (fun dd => (⟨c.year, c.month, c.close, c.close / dd - 1⟩ : YTDObs)))
            |>.filter (fun o => o.year == y && o.month == b.month)).length := rfl
      _ = (processed_bars bars sy ey ty tm).countP
            (fun c => c.year == y && c.month == b.month) := hA
      _ = 1 := hB

/-- Witness for C2: on the concrete bar list Dec-2023 at 100, Jan-2024 at
110 (invariant discharged by `decide`), December of 2023 is present among
the processed bars, so the January-2024 bar yields exactly one
observation. -/
theorem C2_baseline_presence_witness :
    ((calculate_ytd_returns
      [{ year := 2023, month := 12, close := 100 },
       { year := 2024, month := 1, close := 110 }] 2023 2024 2100 1).filter
      (fun o => o.year == 2024 && o.month == 1)).length = 1 :=
  (C2_baseline_presence
    [{ year := 2023, month := 12, close := 100 },
     { year := 2024, month := 1, close := 110 }]
    2023 2024 2100 1 (by decide) 2024).2
    { year := 2024, month := 1, close := 110 } (by decide)
    ⟨{ year := 2023, month := 12, close := 100 }, by decide, by decide,
      by decide⟩ (by decide)

/-! ### C5: truncation to months up to last_month -/

/-- C5: every series extracted by the Multi-Ticker Comparator contains
only months up to last_month (months beyond it are absent — the series
carries values for its months, so nothing is "present with null"); and
the spec's example: a year with months [1,2,3,4] truncated at
last_month = 2 comes out with exactly months [1,2]. -/
theorem C5_truncation (obs : List YTDObs) (year : Int) (lastMonth : Nat) :
    (((get_ytd_for_comparison obs year lastMonth).getD []).all
      (fun p => p.1 ≤ lastMonth)) = true ∧
    get_ytd_for_comparison
      [{ year := 2024, month := 1, close := 10, ytd := 5 },
       { year := 2024, month := 2, close := 10, ytd := 6 },
       { year := 2024, month := 3, close := 10, ytd := 7 },
       { year := 2024, month := 4, close := 10, ytd := 8 }] 2024 2
      = some [(1, 5), (2, 6)] := by
  constructor
  · unfold get_ytd_for_comparison
    dsimp only
    split
    · rfl
    · split
      · simp only [Option.getD_some]
        rw [List.all_eq_true]
        intro p hp
        exact (List.mem_filter.mp hp).2
      · rfl
  · decide

/-! ### C7: inclusion policy and row construction -/

/-- A period series is produced exactly when the truncated series is
non-empty. -/
theorem get_ytd_isSome_iff (obs : List YTDObs) (year : Int) (lastMonth : Nat) :
    (get_ytd_for_comparison obs year lastMonth).isSome ↔
    ((obs.filter (fun o => o.year == year)).map (fun o => (o.month, o.ytd))).filter
      (fun p => p.1 ≤ lastMonth) ≠ [] := by
  unfold get_ytd_for_comparison
  dsimp only
  split
  · rename_i hlen
    simp only [Option.isSome_none, Bool.false_eq_true, false_iff, ne_eq,
      not_not]
    have : obs.filter (fun o => o.year == year) = [] :=
      List.eq_nil_of_length_eq_zero hlen
    rw [this]
    rfl
  · split
    · rename_i hpos
      simp only [Option.isSome_some, true_iff, ne_eq]
      intro hnil
      rw [hnil] at hpos
      simp at hpos
    · rename_i hpos
      simp only [Option.isSome_none, Bool.false_eq_true, false_iff, ne_eq,
        not_not]
      exact List.eq_nil_of_length_eq_zero (by omega)

/-- C7: a ticker appears in the comparison set iff at least one of its
truncated period series is non-empty (a ticker with neither is excluded
entirely); each included ticker's row carries the last value of each
truncated series, and the difference is current - prior, null exactly
when either operand is null. -/
theorem C7_inclusion_policy (allYtd : List (String × List YTDObs))
    (cy py : Int) (lm : Nat) :
    (∀ t : String,
      (∃ e ∈ prepare_comparison_data allYtd cy py lm, e.ticker = t) ↔
      (∃ d, (t, d) ∈ allYtd ∧
        ((get_ytd_for_comparison d cy lm).isSome ∨
         (get_ytd_for_comparison d py lm).isSome))) ∧
    (∀ e ∈ prepare_comparison_data allYtd cy py lm,
      (mk_row e).ticker = e.ticker ∧
      (mk_row e).current_return
        = e.current.bind (fun s => (s.getLast?).map (·.2)) ∧
      (mk_row e).prior_return
        = e.prior.bind (fun s => (s.getLast?).map (·.2)) ∧
      ((mk_row e).difference = none ↔
        ((mk_row e).current_return = none ∨ (mk_row e).prior_return = none)) ∧
      (∀ a b : ℚ, (mk_row e).current_return = some a →
        (mk_row e).prior_return = some b →
        (mk_row e).difference = some (a - b))) := by
  constructor
  · intro t
    constructor
    · rintro ⟨e, he, rfl⟩
      unfold prepare_comparison_data at he
      simp only [List.mem_filterMap] at he
      obtain ⟨td, htd, hf⟩ := he
      by_cases hc : (get_ytd_for_comparison td.2 cy lm).isSome
          || (get_ytd_for_comparison td.2 py lm).isSome
      · rw [if_pos hc] at hf
        obtain rfl := Option.some.inj hf
        refine ⟨td.2, ?_, ?_⟩
        · show (td.1, td.2) ∈ allYtd
          simpa using htd
        · simpa using hc
      · rw [if_neg hc] at hf
        cases hf
    · rintro ⟨d, hd, hor⟩
      refine ⟨{ ticker := t, current := get_ytd_for_comparison d cy lm
                prior := get_ytd_for_comparison d py lm }, ?_, rfl⟩
      unfold prepare_comparison_data
      rw [List.mem_filterMap]
      refine ⟨(t, d), hd, ?_⟩
      rw [if_pos (by simpa using hor)]
  · intro e _he
    unfold mk_row
    refine ⟨rfl, rfl, rfl, ?_, ?_⟩
    · cases hcur : e.current.bind (fun s => (s.getLast?).map (·.2)) with
      | none => simp [hcur]
      | some a =>
        cases hpri : e.prior.bind (fun s => (s.getLast?).map (·.2)) with
        | none => simp [hcur, hpri]
        | some b => simp [hcur, hpri]
    · intro a b ha hb
      simp only at ha hb
      rw [ha, hb]

/-! ### C8: which years contribute to the historical average/stdev -/

theorem filterMap_filter_congr {α β : Type} (g : α → Option β)
    (q r : α → Bool) (h : ∀ a, (g a).isSome → q a = r a) :
    ∀ l : List α, (l.filter q).filterMap g = (l.filter r).filterMap g
  | [] => rfl
  | a :: l => by
    have ih := filterMap_filter_congr g q r h l
    rw [List.filter_cons, List.filter_cons]
    cases hg : g a with
    | none =>
      by_cases hq : q a <;> by_cases hr : r a <;>
        simp [hq, hr, List.filterMap_cons, hg, ih]
    | some b =>
      rw [h a (by rw [hg]; rfl)]
      by_cases hr : r a <;> simp [hr, List.filterMap_cons, hg, ih]

/-- The contribution pool exactly as claim C8 describes it: a year's
December YTD value enters iff that December value exists and the year is
not the highlighted year while the highlighted year is incomplete
(last month < 12). -/
def contributing_dec_pool (ytdByYear : List (Int × List (Nat × ℚ)))
    (highlightYear : Int) (lastMonth : Nat) : List ℚ :=
  (ytdByYear.filter (fun p => (series_get p.2 12).isSome ∧
    ¬(p.1 = highlightYear ∧ lastMonth < 12))).filterMap
    (fun p => series_get p.2 12)

/-- C8: the historical mean/stdev pool of `get_summary_statistics` is
exactly the December values of the years satisfying the contribution
condition; the standard-deviation statistic is the ddof=1 sample
statistic of that pool (represented by its square, the sample variance)
and is null unless at least 2 years contribute. -/
theorem C8_historical_pool (ytdByYear : List (Int × List (Nat × ℚ)))
    (hy : Int) (lm : Nat) :
    (get_summary_statistics ytdByYear hy lm).n_years
      = (contributing_dec_pool ytdByYear hy lm).length ∧
    (get_summary_statistics ytdByYear hy lm).avg_full_year_ytd
      = (if 0 < (contributing_dec_pool ytdByYear hy lm).length then
          some (mean_q (contributing_dec_pool ytdByYear hy lm)) else none) ∧
    (get_summary_statistics ytdByYear hy lm).std_sq_full_year_ytd
      = (if 2 ≤ (contributing_dec_pool ytdByYear hy lm).length then
          some (np_var_ddof1 (contributing_dec_pool ytdByYear hy lm))
        else none) := by
  have hpool :
      (((ytdByYear.filter (fun p =>
          some p.1 ≠ (if lm < 12 then some hy else none))).map
        (fun p => series_get p.2 12)).filterMap id)
      = contributing_dec_pool ytdByYear hy lm := by
    rw [List.filterMap_map]
    unfold contributing_dec_pool
    apply filterMap_filter_congr
    intro p hp
    have hp' : (series_get p.2 12).isSome = true := hp
    by_cases hlt : lm < 12 <;> simp [hlt, hp']
  unfold get_summary_statistics calculate_historical_average
  dsimp only
  rw [hpool]
  exact ⟨rfl, rfl, rfl⟩

/-! ### C9: best/worst year selection -/

theorem pick_max_eq_or_mem (l : List (Int × ℚ)) :
    ∀ b, pick_max b l = b ∨ pick_max b l ∈ l := by
  induction l with
  | nil => intro b; exact Or.inl rfl
  | cons p l ih =>
    intro b
    simp only [pick_max]
    rcases ih (if b.2 < p.2 then p else b) with h | h
    · rw [h]
      by_cases hc : b.2 < p.2
      · rw [if_pos hc]; exact Or.inr (List.mem_cons_self p l)
      · rw [if_neg hc]; exact Or.inl rfl
    · exact Or.inr (List.mem_cons_of_mem p h)

theorem le_pick_max_self (l : List (Int × ℚ)) :
    ∀ b, b.2 ≤ (pick_max b l).2 := by
  induction l with
  | nil => intro b; exact le_refl _
  | cons p l ih =>
    intro b
    simp only [pick_max]
    refine le_trans ?_ (ih (if b.2 < p.2 then p else b))
    by_cases hc : b.2 < p.2
    · rw [if_pos hc]; exact le_of_lt hc
    · rw [if_neg hc]

theorem le_pick_max_of_mem (l : List (Int × ℚ)) :
    ∀ b, ∀ q ∈ l, q.2 ≤ (pick_max b l).2 := by
  induction l with
  | nil => intro b q hq; cases hq
  | cons p l ih =>
    intro b q hq
    simp only [pick_max]
    rcases List.mem_cons.mp hq with rfl | h
    · refine le_trans ?_ (le_pick_max_self l (if b.2 < q.2 then q else b))
      by_cases hc : b.2 < q.2
      · rw [if_pos hc]
      · rw [if_neg hc]; exact le_of_not_lt hc
    · exact ih _ q h

theorem pick_max_tie (l : List (Int × ℚ)) :
    ∀ b, (b :: l).Pairwise (fun x y => x.1 < y.1) →
      ∀ q ∈ b :: l, q.2 = (pick_max b l).2 → (pick_max b l).1 ≤ q.1 := by
  induction l with
  | nil =>
    intro b _ q hq hv
    rcases List.mem_cons.mp hq with rfl | h
    · exact le_refl _
    · cases h
  | cons p l ih =>
    intro b hp q hq hv
    simp only [pick_max] at hv ⊢
    have hpl : (p :: l).Pairwise (fun x y => x.1 < y.1) :=
      (List.pairwise_cons.mp hp).2
    have hbp : b.1 < p.1 :=
      (List.pairwise_cons.mp hp).1 p (List.mem_cons_self p l)
    have hb'cons :
        ((if b.2 < p.2 then p else b) :: l).Pairwise
          (fun x y => x.1 < y.1) := by
      rw [List.pairwise_cons]
      constructor
      · intro c hc
        by_cases hcond : b.2 < p.2
        · rw [if_pos hcond]
          exact (List.pairwise_cons.mp hpl).1 c hc
        · rw [if_neg hcond]
          exact (List.pairwise_cons.mp hp).1 c (List.mem_cons_of_mem p hc)
      · exact (List.pairwise_cons.mp hpl).2
    have ihb := ih (if b.2 < p.2 then p else b) hb'cons
    rcases List.mem_cons.mp hq with rfl | hq2
    · by_cases hcond : q.2 < p.2
      · exfalso
        rw [if_pos hcond] at hv
        exact absurd (lt_of_lt_of_le hcond (le_pick_max_self l p))
          (by rw [← hv]; exact lt_irrefl _)
      · simp only [if_neg hcond] at hv ihb ⊢
        exact ihb q (List.mem_cons_self _ _) hv
    · rcases List.mem_cons.mp hq2 with rfl | hq3
      · by_cases hcond : b.2 < q.2
        · simp only [if_pos hcond] at hv ihb ⊢
          exact ihb q (List.mem_cons_self _ _) hv
        · simp only [if_neg hcond] at hv ihb ⊢
          have h1 : b.2 ≤ (pick_max b l).2 := le_pick_max_self l b
          have h2 : (pick_max b l).2 ≤ b.2 := by
            rw [← hv]; exact le_of_not_lt hcond
          have h4 := ihb b (List.mem_cons_self _ _) (le_antisymm h1 h2)
          exact le_trans h4 (le_of_lt hbp)
      · by_cases hcond : b.2 < p.2
        · simp only [if_pos hcond] at hv ihb ⊢
          exact ihb q (List.mem_cons_of_mem _ hq3) hv
        · simp only [if_neg hcond] at hv ihb ⊢
          exact ihb q (List.mem_cons_of_mem _ hq3) hv

theorem pick_min_eq_or_mem (l : List (Int × ℚ)) :
    ∀ b, pick_min b l = b ∨ pick_min b l ∈ l := by
  induction l with
  | nil => intro b; exact Or.inl rfl
  | cons p l ih =>
    intro b
    simp only [pick_min]
    rcases ih (if p.2 < b.2 then p else b) with h | h
    · rw [h]
      by_cases hc : p.2 < b.2
      · rw [if_pos hc]; exact Or.inr (List.mem_cons_self p l)
      · rw [if_neg hc]; exact Or.inl rfl
    · exact Or.inr (List.mem_cons_of_mem p h)

theorem pick_min_le_self (l : List (Int × ℚ)) :
    ∀ b, (pick_min b l).2 ≤ b.2 := by
  induction l with
  | nil => intro b; exact le_refl _
  | cons p l ih =>
    intro b
    simp only [pick_min]
    refine le_trans (ih (if p.2 < b.2 then p else b)) ?_
    by_cases hc : p.2 < b.2
    · rw [if_pos hc]; exact le_of_lt hc
    · rw [if_neg hc]

theorem pick_min_le_of_mem (l : List (Int × ℚ)) :
    ∀ b, ∀ q ∈ l, (pick_min b l).2 ≤ q.2 := by
  induction l with
  | nil => intro b q hq; cases hq
  | cons p l ih =>
    intro b q hq
    simp only [pick_min]
    rcases List.mem_cons.mp hq with rfl | h
    · refine le_trans (pick_min_le_self l (if q.2 < b.2 then q else b)) ?_
      by_cases hc : q.2 < b.2
      · rw [if_pos hc]
      · rw [if_neg hc]; exact le_of_not_lt hc
    · exact ih _ q h

theorem pick_min_tie (l : List (Int × ℚ)) :
    ∀ b, (b :: l).Pairwise (fun x y => x.1 < y.1) →
      ∀ q ∈ b :: l, q.2 = (pick_min b l).2 → (pick_min b l).1 ≤ q.1 := by
  induction l with
  | nil =>
    intro b _ q hq hv
    rcases List.mem_cons.mp hq with rfl | h
    · exact le_refl _
    · cases h
  | cons p l ih =>
    intro b hp q hq hv
    simp only [pick_min] at hv ⊢
    have hpl : (p :: l).Pairwise (fun x y => x.1 < y.1) :=
      (List.pairwise_cons.mp hp).2
    have hbp : b.1 < p.1 :=
      (List.pairwise_cons.mp hp).1 p (List.mem_cons_self p l)
    have hb'cons :
        ((if p.2 < b.2 then p else b) :: l).Pairwise
          (fun x y => x.1 < y.1) := by
      rw [List.pairwise_cons]
      constructor
      · intro c hc
        by_cases hcond : p.2 < b.2
        · rw [if_pos hcond]
          exact (List.pairwise_cons.mp hpl).1 c hc
        · rw [if_neg hcond]
          exact (List.pairwise_cons.mp hp).1 c (List.mem_cons_of_mem p hc)
      · exact (List.pairwise_cons.mp hpl).2
    have ihb := ih (if p.2 < b.2 then p else b) hb'cons
    rcases List.mem_cons.mp hq with rfl | hq2
    · by_cases hcond : p.2 < q.2
      · exfalso
        rw [if_pos hcond] at hv
        exact absurd (lt_of_le_of_lt (pick_min_le_self l p) hcond)
          (by rw [← hv]; exact lt_irrefl _)
      · simp only [if_neg hcond] at hv ihb ⊢
        exact ihb q (List.mem_cons_self _ _) hv
    · rcases List.mem_cons.mp hq2 with rfl | hq3
      · by_cases hcond : q.2 < b.2
        · simp only [if_pos hcond] at hv ihb ⊢
          exact ihb q (List.mem_cons_self _ _) hv
        · simp only [if_neg hcond] at hv ihb ⊢
          have h1 : (pick_min b l).2 ≤ b.2 := pick_min_le_self l b
          have h2 : b.2 ≤ (pick_min b l).2 := by
            rw [← hv]; exact le_of_not_lt hcond
          have h4 := ihb b (List.mem_cons_self _ _) (le_antisymm h2 h1)
          exact le_trans h4 (le_of_lt hbp)
      · by_cases hcond : p.2 < b.2
        · simp only [if_pos hcond] at hv ihb ⊢
          exact ihb q (List.mem_cons_of_mem _ hq3) hv
        · simp only [if_neg hcond] at hv ihb ⊢
          exact ihb q (List.mem_cons_of_mem _ hq3) hv

theorem find?_fst_eq {l : List (Int × ℚ)}
    (hnd : l.Pairwise (fun x y => x.1 < y.1)) {a : Int × ℚ} (ha : a ∈ l) :
    l.find? (fun p => p.1 == a.1) = some a := by
  induction l with
  | nil => cases ha
  | cons c l ih =>
    rcases List.mem_cons.mp ha with rfl | h
    · exact List.find?_cons_of_pos l (by simp)
    · have hlt : c.1 < a.1 :=
        (List.pairwise_cons.mp hnd).1 a h
      rw [List.find?_cons_of_neg l (by simp; omega)]
      exact ih (List.pairwise_cons.mp hnd).2 h

theorem year_end_returns_fst_sublist :
    ∀ l : List (Int × List (Nat × ℚ)),
      List.Sublist ((year_end_returns l).map Prod.fst) (l.map Prod.fst)
  | [] => List.Sublist.refl _
  | p :: l => by
    unfold year_end_returns
    rw [List.filterMap_cons]
    cases hg : series_get p.2 12 with
    | none =>
      simp only [Option.map_none', List.map_cons]
      exact (year_end_returns_fst_sublist l).cons _
    | some v =>
      simp only [Option.map_some', List.map_cons]
      exact (year_end_returns_fst_sublist l).cons₂ _

/-- C9: best_year/worst_year are argmax/argmin of the December YTD value
over exactly the years that have one (the entries of
`year_end_returns`), ties broken by the smallest year (the dict is
iterated in ascending year order, and Python's max/min keep the first
maximal/minimal item); with zero December values all four fields are
null. -/
theorem C9_best_worst (ytdByYear : List (Int × List (Nat × ℚ))) (hy : Int)
    (lm : Nat)
    (hsorted : (ytdByYear.map Prod.fst).Pairwise (· < ·)) :
    (year_end_returns ytdByYear = [] →
      (get_summary_statistics ytdByYear hy lm).best_year = none ∧
      (get_summary_statistics ytdByYear hy lm).best_return = none ∧
      (get_summary_statistics ytdByYear hy lm).worst_year = none ∧
      (get_summary_statistics ytdByYear hy lm).worst_return = none) ∧
    (year_end_returns ytdByYear ≠ [] →
      (∃ y v, (get_summary_statistics ytdByYear hy lm).best_year = some y ∧
        (get_summary_statistics ytdByYear hy lm).best_return = some v ∧
        (y, v) ∈ year_end_returns ytdByYear ∧
        (∀ q ∈ year_end_returns ytdByYear, q.2 ≤ v) ∧
        (∀ q ∈ year_end_returns ytdByYear, q.2 = v → y ≤ q.1)) ∧
      (∃ y v, (get_summary_statistics ytdByYear hy lm).worst_year = some y ∧
        (get_summary_statistics ytdByYear hy lm).worst_return = some v ∧
        (y, v) ∈ year_end_returns ytdByYear ∧
        (∀ q ∈ year_end_returns ytdByYear, v ≤ q.2) ∧
        (∀ q ∈ year_end_returns ytdByYear, q.2 = v → y ≤ q.1))) := by
  have hyer : (year_end_returns ytdByYear).Pairwise
      (fun x y => x.1 < y.1) := by
    have h1 : ((year_end_returns ytdByYear).map Prod.fst).Pairwise (· < ·) :=
      hsorted.sublist (year_end_returns_fst_sublist ytdByYear)
    exact List.pairwise_map.mp h1
  constructor
  · intro h
    have e1 : (get_summary_statistics ytdByYear hy lm).best_year
        = (argmax_first (year_end_returns ytdByYear)).map (·.1) := rfl
    have e2 : (get_summary_statistics ytdByYear hy lm).best_return
        = ((argmax_first (year_end_returns ytdByYear)).map (·.1)).bind
          (fun y0 => ((year_end_returns ytdByYear).find?
            (fun q => q.1 == y0)).map (·.2)) := rfl
    have e3 : (get_summary_statistics ytdByYear hy lm).worst_year
        = (argmin_first (year_end_returns ytdByYear)).map (·.1) := rfl
    have e4 : (get_summary_statistics ytdByYear hy lm).worst_return
        = ((argmin_first (year_end_returns ytdByYear)).map (·.1)).bind
          (fun y0 => ((year_end_returns ytdByYear).find?
            (fun q => q.1 == y0)).map (·.2)) := rfl
    rw [h] at e1 e2 e3 e4
    exact ⟨e1, e2, e3, e4⟩
  · intro hne
    obtain ⟨p, rest, hcons⟩ := List.exists_cons_of_ne_nil hne
    rw [hcons] at hyer
    constructor
    · refine ⟨(pick_max p rest).1, (pick_max p rest).2, ?_, ?_, ?_, ?_, ?_⟩
      · have e1 : (get_summary_statistics ytdByYear hy lm).best_year
            = (argmax_first (year_end_returns ytdByYear)).map (·.1) := rfl
        rw [hcons] at e1
        simpa [argmax_first] using e1
      · have hPmem : pick_max p rest ∈ p :: rest := by
          rcases pick_max_eq_or_mem rest p with h | h
          · rw [h]; exact List.mem_cons_self _ _
          · exact List.mem_cons_of_mem _ h
        have e2 : (get_summary_statistics ytdByYear hy lm).best_return
            = ((argmax_first (year_end_returns ytdByYear)).map (·.1)).bind
              (fun y0 => ((year_end_returns ytdByYear).find?
                (fun q => q.1 == y0)).map (·.2)) := rfl
        rw [hcons] at e2
        simp only [argmax_first, Option.map_some', Option.some_bind] at e2
        rw [find?_fst_eq hyer hPmem] at e2
        simpa using e2
      · rw [hcons]
        rcases pick_max_eq_or_mem rest p with h | h
        · rw [h]; exact List.mem_cons_self _ _
        · exact List.mem_cons_of_mem _ h
      · intro q hq
        rw [hcons] at hq
        rcases List.mem_cons.mp hq with rfl | h
        · exact le_pick_max_self rest q
        · exact le_pick_max_of_mem rest p q h
      · intro q hq hv
        rw [hcons] at hq
        exact pick_max_tie rest p hyer q hq hv
    · refine ⟨(pick_min p rest).1, (pick_min p rest).2, ?_, ?_, ?_, ?_, ?_⟩
      · have e3 : (get_summary_statistics ytdByYear hy lm).worst_year
            = (argmin_first (year_end_returns ytdByYear)).map (·.1) := rfl
        rw [hcons] at e3
        simpa [argmin_first] using e3
      · have hPmem : pick_min p rest ∈ p :: rest := by
          rcases pick_min_eq_or_mem rest p with h | h
          · rw [h]; exact List.mem_cons_self _ _
          · exact List.mem_cons_of_mem _ h
        have e4 : (get_summary_statistics ytdByYear hy lm).worst_return
            = ((argmin_first (year_end_returns ytdByYear)).map (·.1)).bind
              (fun y0 => ((year_end_returns ytdByYear).find?
                (fun q => q.1 == y0)).map (·.2)) := rfl
        rw [hcons] at e4
        simp only [argmin_first, Option.map_some', Option.some_bind] at e4
        rw [find?_fst_eq hyer hPmem] at e4
        simpa using e4
      · rw [hcons]
        rcases pick_min_eq_or_mem rest p with h | h
        · rw [h]; exact List.mem_cons_self _ _
        · exact List.mem_cons_of_mem _ h
      · intro q hq
        rw [hcons] at hq
        rcases List.mem_cons.mp hq with rfl | h
        · exact pick_min_le_self rest q
        · exact pick_min_le_of_mem rest p q h
      · intro q hq hv
        rw [hcons] at hq
        exact pick_min_tie rest p hyer q hq hv

/-- Witness for C9: on a concrete table whose single year has no
December entry, all four best/worst fields are null. -/
theorem C9_best_worst_witness :
    (get_summary_statistics [(2022, [(1, 5)])] 2023 12).best_year = none ∧
    (get_summary_statistics [(2022, [(1, 5)])] 2023 12).best_return = none ∧
    (get_summary_statistics [(2022, [(1, 5)])] 2023 12).worst_year = none ∧
    (get_summary_statistics [(2022, [(1, 5)])] 2023 12).worst_return = none :=
  (C9_best_worst [(2022, [(1, 5)])] 2023 12 (by decide)).1 rfl

/-! ### C6: sorting of the comparison table -/

instance : IsTotal CompRow row_ge :=
  ⟨fun a b => le_total (b.current_return.getD 0) (a.current_return.getD 0)⟩

instance : IsTrans CompRow row_ge :=
  ⟨fun _ _ _ hab hbc => le_trans hbc hab⟩

theorem orderedInsert_filter_of_const (p : CompRow → Bool)
    (hconst : ∀ a b, p a = true → p b = true → row_ge a b) (a : CompRow) :
    ∀ m : List CompRow, ((m.orderedInsert row_ge a).filter p)
      = if p a then a :: m.filter p else m.filter p
  | [] => by
    by_cases hpa : p a <;> simp [List.orderedInsert, hpa]
  | b :: m => by
    rw [List.orderedInsert]
    by_cases hr : row_ge a b
    · rw [if_pos hr, List.filter_cons]
    · rw [if_neg hr, List.filter_cons]
      have ih := orderedInsert_filter_of_const p hconst a m
      by_cases hpa : p a
      · have hpb : ¬ p b = true := fun hpb => hr (hconst a b hpa hpb)
        rw [if_neg hpb, ih]
        simp [hpa, List.filter_cons, hpb]
      · rw [ih]
        simp [hpa, List.filter_cons]

theorem insertionSort_filter_of_const (p : CompRow → Bool)
    (hconst : ∀ a b, p a = true → p b = true → row_ge a b) :
    ∀ l : List CompRow, ((l.insertionSort row_ge).filter p) = l.filter p
  | [] => rfl
  | a :: l => by
    rw [List.insertionSort,
      orderedInsert_filter_of_const p hconst a (l.insertionSort row_ge),
      insertionSort_filter_of_const p hconst l, List.filter_cons]

/-- C6: the comparison table is a permutation of the per-ticker rows (in
input order), it is pairwise ordered by current_return descending with
null current_return rows last, and it is stable: for every current_return
value (null included) the rows carrying that value appear in exactly
their input order. -/
theorem C6_sort_descending_stable (data : List TickerSeries) :
    List.Perm (calculate_comparison_statistics data) (data.map mk_row) ∧
    (calculate_comparison_statistics data).Pairwise (fun a b =>
      (a.current_return = none → b.current_return = none) ∧
      (∀ x z : ℚ, a.current_return = some x → b.current_return = some z →
        z ≤ x)) ∧
    (∀ v : Option ℚ,
      (calculate_comparison_statistics data).filter
        (fun r => r.current_return == v)
      = (data.map mk_row).filter (fun r => r.current_return == v)) := by
  have hS : calculate_comparison_statistics data
      = ((data.map mk_row).filter
          (fun r => r.current_return.isSome)).insertionSort row_ge
        ++ (data.map mk_row).filter (fun r => r.current_return.isNone) := rfl
  have hNN : (data.map mk_row).filter (fun r => r.current_return.isNone)
      = (data.map mk_row).filter (fun r => !(r.current_return.isSome)) :=
    List.filter_congr (fun r _ => by cases r.current_return <;> rfl)
  have hmemS : ∀ r ∈ ((data.map mk_row).filter
      (fun r => r.current_return.isSome)).insertionSort row_ge,
      r.current_return.isSome = true := by
    intro r hr
    have := (List.perm_insertionSort row_ge _).mem_iff.mp hr
    exact (List.mem_filter.mp this).2
  have hmemN : ∀ r ∈ (data.map mk_row).filter
      (fun r => r.current_return.isNone), r.current_return = none := by
    intro r hr
    have := (List.mem_filter.mp hr).2
    exact Option.isNone_iff_eq_none.mp this
  refine ⟨?_, ?_, ?_⟩
  · rw [hS, hNN]
    exact ((List.perm_insertionSort row_ge _).append_right _).trans
      (List.filter_append_perm _ _)
  · rw [hS, List.pairwise_append]
    refine ⟨?_, ?_, ?_⟩
    · refine (List.sorted_insertionSort row_ge _).imp_of_mem ?_
      intro a b ha hb hab
      constructor
      · intro hnone
        exact absurd (hmemS a ha) (by rw [hnone]; simp)
      · intro x z hx hz
        have : b.current_return.getD 0 ≤ a.current_return.getD 0 := hab
        rw [hx, hz] at this
        exact this
    · apply List.pairwise_of_forall_mem_list
      intro a ha b hb
      constructor
      · intro _
        exact hmemN b hb
      · intro x z hx _
        exact absurd hx (by rw [hmemN a ha]; simp)
    · intro a ha b hb
      constructor
      · intro hnone
        exact absurd (hmemS a ha) (by rw [hnone]; simp)
      · intro x z _ hz
        exact absurd hz (by rw [hmemN b hb]; simp)
  · intro v
    rw [hS, List.filter_append]
    cases v with
    | none =>
      have h1 : (((data.map mk_row).filter
          (fun r => r.current_return.isSome)).insertionSort row_ge).filter
          (fun r => r.current_return == none) = [] := by
        rw [List.filter_eq_nil_iff]
        intro r hr hbeq
        have := hmemS r hr
        rw [Option.isSome_iff_exists] at this
        obtain ⟨x, hx⟩ := this
        rw [hx] at hbeq
        exact absurd hbeq (by simp)
      have h2 : ((data.map mk_row).filter
          (fun r => r.current_return.isNone)).filter
          (fun r => r.current_return == none)
          = (data.map mk_row).filter (fun r => r.current_return == none) := by
        rw [List.filter_filter]
        exact List.filter_congr (fun r _ => by
          cases r.current_return <;> rfl)
      rw [h1, h2, List.nil_append]
    | some x =>
      have hconst : ∀ a b : CompRow,
          (a.current_return == some x) = true →
          (b.current_return == some x) = true → row_ge a b := by
        intro a b ha hb
        have ha' : a.current_return = some x := by simpa using ha
        have hb' : b.current_return = some x := by simpa using hb
        show b.current_return.getD 0 ≤ a.current_return.getD 0
        rw [ha', hb']
      have h1 : (((data.map mk_row).filter
          (fun r => r.current_return.isSome)).insertionSort row_ge).filter
          (fun r => r.current_return == some x)
          = (data.map mk_row).filter (fun r => r.current_return == some x) := by
        rw [insertionSort_filter_of_const _ hconst, List.filter_filter]
        exact List.filter_congr (fun r _ => by
          cases r.current_return <;> simp)
      have h2 : ((data.map mk_row).filter
          (fun r => r.current_return.isNone)).filter
          (fun r => r.current_return == some x) = [] := by
        rw [List.filter_filter, List.filter_eq_nil_iff]
        intro r hr hbeq
        rw [Bool.and_eq_true] at hbeq
        have := Option.isNone_iff_eq_none.mp hbeq.2
        rw [this] at hbeq
        exact absurd hbeq.1 (by simp)
      rw [h1, h2, List.append_nil]
